import Mathlib

/-!
Verification of `src/crowdmath/rational_goldbach_solver.py`.

The program searches for rational bases `r` whose truncated semidomain
(the set of powers `r^k` not exceeding a ceiling) covers every even
integer in `[4, max_value]` by pairwise sums.  The Python code works
with `Fraction` candidates converted to floats; since every candidate
lies in `(0, 1]` and all quantities involved are exact dyadic-free
rationals whose comparisons are decided exactly, we embed the numeric
values as `ℚ`.  Python's `Fraction(n, d)` normalises its argument, and
Lean's `ℚ` does the same, so the data model matches.
-/

namespace RationalGoldbach

/-- The element-collecting loop of `generate_semidomain_elements`:
`for k in range(max_power): element = r ** k; if element > max_value: break;
elements.add(element)`.  `fuel` is the number of loop iterations left and
`k` the current exponent; the returned list records the elements in the
order they are added. -/
def genPowers (r maxValue : ℚ) : ℕ → ℕ → List ℚ
  | 0, _ => []
  | fuel + 1, k =>
    if r ^ k > maxValue then []
    else r ^ k :: genPowers r maxValue fuel (k + 1)

/-- `generate_semidomain_elements(r, max_value, max_power=20)`:
collect the powers into a set and return them `sorted(...)` ascending. -/
def generate_semidomain_elements (r maxValue : ℚ) (maxPower : ℕ := 20) : List ℚ :=
  (genPowers r maxValue maxPower 0).toFinset.sort (· ≤ ·)

/-- `sums = {a + b for a, b in product(elements, repeat=2)}`, kept as the
list of sums in product order; Python's set only changes membership
queries, which ignore duplication anyway. -/
def pairwiseSums (elements : List ℚ) : List ℚ :=
  elements.flatMap (fun a => elements.map (fun b => a + b))

/-- `range(4, max_value + 1, 2)`: the even integers scanned by the checker. -/
def evenRange (maxValue : ℕ) : List ℕ :=
  List.range' 4 ((maxValue + 1 - 4 + 1) / 2) 2

/-- `check_goldbach_analogue(r, max_value)`: build the truncated semidomain,
form all pairwise sums, and test every even integer in
`range(4, max_value + 1, 2)` for membership, returning `False` at the
first miss (`List.all` short-circuits exactly like the Python loop). -/
def check_goldbach_analogue (r : ℚ) (maxValue : ℕ) : Bool :=
  let elements := generate_semidomain_elements r (maxValue : ℚ)
  let sums := pairwiseSums elements
  (evenRange maxValue).all (fun e => decide ((e : ℚ) ∈ sums))

/-- The grid the driver enumerates: `(numerator, denominator)` pairs with
`denominator in range(min_denominator, max_denominator + 1)` outer and
`numerator in range(1, denominator + 1)` inner, in visit order.
`total_checked` in the driver is the length of this list. -/
def candidatePairs (minD maxD : ℕ) : List (ℕ × ℕ) :=
  (List.range' minD (maxD + 1 - minD)).flatMap
    (fun d => (List.range' 1 d).map (fun n => (n, d)))

/-- The driver's `total_checked` counter: one increment per visited pair. -/
def total_checked (minD maxD : ℕ) : ℕ :=
  (candidatePairs minD maxD).length

/-- `find_rational_satisfying_goldbach(max_value, max_denominator,
min_denominator)`: nested loops over the grid; each candidate
`r = Fraction(numerator, denominator)` (a normalising constructor, like
`mkRat`) is checked and appended to `valid_rationals` when the check
succeeds. -/
def find_rational_satisfying_goldbach
    (maxValue : ℕ := 1000) (maxDenominator : ℕ := 10) (minDenominator : ℕ := 1) :
    List ℚ :=
  (List.range' minDenominator (maxDenominator + 1 - minDenominator)).flatMap
    (fun d => (List.range' 1 d).filterMap
      (fun n : ℕ =>
        if check_goldbach_analogue (mkRat n d) maxValue
        then some (mkRat n d) else none))

/-! ### Structural lemmas about the generator -/

/-- Every element collected by the generation loop is a power of `r`
and is at most `maxValue` (the loop breaks before adding an excess power). -/
theorem mem_genPowers {r maxValue x : ℚ} :
    ∀ {fuel k : ℕ}, x ∈ genPowers r maxValue fuel k →
      (∃ j, x = r ^ j) ∧ x ≤ maxValue := by
  intro fuel
  induction fuel with
  | zero => intro k h; simp [genPowers] at h
  | succ n ih =>
    intro k h
    rw [genPowers] at h
    split at h
    · simp at h
    · next hgt =>
      rcases List.mem_cons.mp h with h1 | h2
      · exact ⟨⟨k, h1⟩, h1 ▸ le_of_not_lt hgt⟩
      · exact ih h2

/-- Membership in the returned sorted list coincides with membership in
the collected set of powers. -/
theorem mem_generate {r maxValue x : ℚ} {maxPower : ℕ} :
    x ∈ generate_semidomain_elements r maxValue maxPower ↔
      x ∈ genPowers r maxValue maxPower 0 := by
  unfold generate_semidomain_elements
  rw [Finset.mem_sort, List.mem_toFinset]

/-- C4: the generator's output is strictly ascending and bounded by the ceiling. -/
theorem generate_sorted_and_bounded (r maxValue : ℚ) (maxPower : ℕ)
    (hr : 0 < r) (hm : 1 ≤ maxValue) :
    (generate_semidomain_elements r maxValue maxPower).Sorted (· < ·) ∧
      ∀ x ∈ generate_semidomain_elements r maxValue maxPower, x ≤ maxValue := by
  constructor
  · exact Finset.sort_sorted_lt _
  · intro x hx
    exact (mem_genPowers (mem_generate.mp hx)).2

/-- Witness for C4 at `r = 2`, `maxValue = 5`, `maxPower = 20`. -/
theorem generate_sorted_and_bounded_witness :
    (generate_semidomain_elements 2 5 20).Sorted (· < ·) ∧
      ∀ x ∈ generate_semidomain_elements 2 5 20, x ≤ 5 :=
  generate_sorted_and_bounded 2 5 20 (by norm_num) (by norm_num)

/-- C10: with a ceiling below `1`, already `r ^ 0 = 1` exceeds it, so the
loop breaks at `k = 0` and the generator returns the empty list. -/
theorem generate_empty_of_ceiling_lt_one (r maxValue : ℚ) (maxPower : ℕ)
    (hr : 0 < r) (h0 : 0 < maxValue) (h1 : maxValue < 1) :
    generate_semidomain_elements r maxValue maxPower = [] := by
  have hg : genPowers r maxValue maxPower 0 = [] := by
    cases maxPower with
    | zero => rfl
    | succ n =>
      rw [genPowers, if_pos]
      rw [pow_zero]
      exact h1
  unfold generate_semidomain_elements
  rw [hg]
  simp [Finset.sort_empty]

/-- Witness for C10 at `r = 3`, `maxValue = 1/2`, `maxPower = 7`. -/
theorem generate_empty_of_ceiling_lt_one_witness :
    generate_semidomain_elements 3 (1/2) 7 = [] :=
  generate_empty_of_ceiling_lt_one 3 (1/2) 7 (by norm_num) (by norm_num) (by norm_num)

/-! ### Structural lemmas about the checker -/

/-- `range(4, max_value + 1, 2)` contains exactly the even integers of
`[4, max_value]`. -/
theorem mem_evenRange {maxValue e : ℕ} :
    e ∈ evenRange maxValue ↔ 4 ≤ e ∧ e ≤ maxValue ∧ e % 2 = 0 := by
  simp only [evenRange, List.mem_range']
  constructor
  · rintro ⟨i, hi, rfl⟩
    omega
  · rintro ⟨h4, hle, hev⟩
    exact ⟨(e - 4) / 2, by omega, by omega⟩

/-- C3: the checker returns `true` exactly when every even integer in
`[4, max_value]` is a pairwise sum of two generated elements. -/
theorem check_iff_coverage (r : ℚ) (maxValue : ℕ)
    (hr : 0 < r) (hm : 0 < maxValue) :
    check_goldbach_analogue r maxValue = true ↔
      ∀ e : ℕ, 4 ≤ e → e ≤ maxValue → e % 2 = 0 →
        (e : ℚ) ∈ pairwiseSums (generate_semidomain_elements r (maxValue : ℚ)) := by
  unfold check_goldbach_analogue
  simp only [List.all_eq_true, decide_eq_true_eq, mem_evenRange, and_imp]

/-- Witness for C3 at `r = 1`, `maxValue = 2` (the equivalence is vacuous
on the right because no even integer lies in `[4, 2]`). -/
theorem check_iff_coverage_witness :
    (0 : ℚ) < 1 ∧ 0 < 2 ∧
      (check_goldbach_analogue 1 2 = true ↔
        ∀ e : ℕ, 4 ≤ e → e ≤ 2 → e % 2 = 0 →
          (e : ℚ) ∈ pairwiseSums (generate_semidomain_elements 1 ((2 : ℕ) : ℚ))) :=
  ⟨by norm_num, by norm_num, check_iff_coverage 1 2 (by norm_num) (by norm_num)⟩

/-- C9: when `max_value < 4`, the scanned range of even integers is empty,
so the checker succeeds without testing any sum. -/
theorem check_vacuously_true (r : ℚ) (maxValue : ℕ)
    (hr : 0 < r) (hm : maxValue < 4) :
    check_goldbach_analogue r maxValue = true := by
  unfold check_goldbach_analogue
  have h : evenRange maxValue = [] := by
    unfold evenRange
    have hz : (maxValue + 1 - 4 + 1) / 2 = 0 := by omega
    rw [hz]
    rfl
  rw [h]
  rfl

/-- Witness for C9 at `r = 5/7`, `maxValue = 3`. -/
theorem check_vacuously_true_witness :
    check_goldbach_analogue (5/7) 3 = true :=
  check_vacuously_true (5/7) 3 (by norm_num) (by norm_num)

/-! ### The grid never covers 4: candidates lie in `(0, 1]` -/

/-- Every generated element of a base `r ≤ 1` is at most `1`. -/
theorem generate_le_one {r : ℚ} (hr0 : 0 ≤ r) (hr1 : r ≤ 1)
    {maxValue : ℚ} {maxPower : ℕ} {x : ℚ}
    (hx : x ∈ generate_semidomain_elements r maxValue maxPower) : x ≤ 1 := by
  obtain ⟨⟨j, rfl⟩, -⟩ := mem_genPowers (mem_generate.mp hx)
  exact pow_le_one₀ hr0 hr1

/-- For a base in `(0, 1]` every pairwise sum is at most `2`, so the even
integer `4` is never covered and the checker fails whenever it is scanned. -/
theorem check_false_of_le_one {r : ℚ} (hr1 : r ≤ 1) (hr0 : 0 ≤ r)
    {maxValue : ℕ} (hm : 4 ≤ maxValue) :
    check_goldbach_analogue r maxValue = false := by
  simp only [check_goldbach_analogue, List.all_eq_false, decide_eq_true_eq]
  refine ⟨4, mem_evenRange.mpr ⟨le_refl 4, hm, rfl⟩, ?_⟩
  intro hmem
  simp only [pairwiseSums, List.mem_flatMap, List.mem_map] at hmem
  obtain ⟨a, ha, b, hb, hab⟩ := hmem
  have ha1 : a ≤ 1 := generate_le_one hr0 hr1 ha
  have hb1 : b ≤ 1 := generate_le_one hr0 hr1 hb
  have h2 : ((4 : ℕ) : ℚ) ≤ 2 := by
    rw [← hab]
    linarith
  norm_num at h2

/-- C8: for `r = 1` the semidomain collapses to `{1}`, the only pairwise
sum is `2`, and `4` is not representable, so the checker reports failure. -/
theorem check_one_1000_false : check_goldbach_analogue 1 1000 = false :=
  check_false_of_le_one le_rfl zero_le_one (by norm_num)

/-- C2: with the documented defaults every candidate `n / d` has
`1 ≤ n ≤ d`, hence lies in `(0, 1]`, its sums never reach `4`, and the
search returns the empty list. -/
theorem search_defaults_empty :
    find_rational_satisfying_goldbach 1000 10 1 = [] := by
  unfold find_rational_satisfying_goldbach
  rw [List.flatMap_eq_nil_iff]
  intro d hd
  rw [List.filterMap_eq_nil_iff]
  intro n hn
  rw [List.mem_range'_1] at hd hn
  have hd1 : 1 ≤ d := hd.1
  have hn1 : 1 ≤ n := hn.1
  have hnd : n ≤ d := by omega
  have hdq : (0 : ℚ) < ((d : ℕ) : ℚ) := by
    have h1 : (1 : ℚ) ≤ ((d : ℕ) : ℚ) := by exact_mod_cast hd1
    linarith
  have hr0 : (0 : ℚ) ≤ mkRat n d := by
    rw [Rat.mkRat_eq_div]
    positivity
  have hr1 : mkRat n d ≤ 1 := by
    rw [Rat.mkRat_eq_div, div_le_one hdq]
    exact_mod_cast hnd
  show (if check_goldbach_analogue (mkRat n d) 1000
        then some (mkRat n d) else none) = none
  rw [check_false_of_le_one hr1 hr0 (by norm_num : 4 ≤ 1000)]
  simp

/-! ### Driver structure: enumeration order and statistics -/

/-- The driver is the order-preserving filter of the grid visited in
nested-loop order. -/
theorem find_eq_filterMap (maxValue maxD minD : ℕ) :
    find_rational_satisfying_goldbach maxValue maxD minD =
      (candidatePairs minD maxD).filterMap (fun p =>
        if check_goldbach_analogue (mkRat p.1 p.2) maxValue
        then some (mkRat p.1 p.2) else none) := by
  unfold find_rational_satisfying_goldbach candidatePairs
  rw [List.filterMap_flatMap]
  congr 1
  funext d
  rw [List.filterMap_map]
  rfl

/-- C5: `search(max_value := 4, max_denominator := 2, min_denominator := 1)`
visits exactly `(1,1), (1,2), (2,2)` in that order, and the result list is
the order-preserving filter of that enumeration. -/
theorem search_enumeration_order :
    candidatePairs 1 2 = [(1, 1), (1, 2), (2, 2)] ∧
      find_rational_satisfying_goldbach 4 2 1 =
        (candidatePairs 1 2).filterMap (fun p =>
          if check_goldbach_analogue (mkRat p.1 p.2) 4
          then some (mkRat p.1 p.2) else none) :=
  ⟨rfl, find_eq_filterMap 4 2 1⟩

/-- Appending one more denominator block to the grid. -/
theorem candidatePairs_one_succ (n : ℕ) :
    candidatePairs 1 (n + 1) =
      candidatePairs 1 n ++ (List.range' 1 (n + 1)).map (fun m => (m, n + 1)) := by
  unfold candidatePairs
  have h1 : n + 1 + 1 - 1 = n + 1 := by omega
  have h2 : n + 1 - 1 = n := by omega
  rw [h1, h2, List.range'_concat, List.flatMap_append]
  have h3 : 1 + 1 * n = n + 1 := by omega
  rw [h3, List.flatMap_cons, List.flatMap_nil, List.append_nil,
    List.range'_concat, h3]

/-- The number of grid pairs with denominators `1..D` is triangular. -/
theorem total_checked_one (D : ℕ) : total_checked 1 D = D * (D + 1) / 2 := by
  induction D with
  | zero => rfl
  | succ n ih =>
    unfold total_checked at ih ⊢
    rw [candidatePairs_one_succ, List.length_append, ih, List.length_map,
      List.length_range']
    have e : (n + 1) * (n + 1 + 1) = n * (n + 1) + 2 * (n + 1) := by ring
    rw [e, Nat.add_mul_div_left _ _ (by norm_num : (0 : ℕ) < 2)]

/-- C6: a run with `min_denominator = 1` and `max_denominator = D` checks
exactly `D * (D + 1) / 2` candidates. -/
theorem search_candidate_count (D : ℕ) (hD : 1 ≤ D) :
    total_checked 1 D = D * (D + 1) / 2 :=
  total_checked_one D

/-- Witness for C6 at `D = 4`: ten candidates. -/
theorem search_candidate_count_witness :
    1 ≤ 4 ∧ total_checked 1 4 = 4 * (4 + 1) / 2 :=
  ⟨by norm_num, search_candidate_count 4 (by norm_num)⟩

/-! ### Concrete runs -/

/-- C7: for `r = 2` the early-exit stops at `2 ^ 10 = 1024 > 1000`, before
the default `max_power = 20` cap, and the excess power is excluded. -/
theorem generate_two_1000 :
    generate_semidomain_elements 2 1000 =
      [1, 2, 4, 8, 16, 32, 64, 128, 256, 512] := by
  have h : genPowers 2 1000 20 0 = [1, 2, 4, 8, 16, 32, 64, 128, 256, 512] := by
    decide
  unfold generate_semidomain_elements
  rw [h]
  exact (List.toFinset_sort (· ≤ ·) (by decide)).mpr (by decide)

/-- C1 fails as stated: with `max_value = 3` every candidate passes
vacuously, and the entry appended for the grid pair `(2, 4)` — position 7
of the enumeration — is the normalised rational `1/2`, not the unreduced
pair `(2, 4)`: its stored numerator is `1` and denominator `2`, the same
representation as the entry appended for `(1, 2)`. -/
theorem driver_appends_reduced_counterexample :
    (find_rational_satisfying_goldbach 3 4 1)[7]? = some (mkRat 2 4) ∧
      (mkRat 2 4).num = 1 ∧ (mkRat 2 4).den = 2 ∧
      (find_rational_satisfying_goldbach 3 4 1)[7]? =
        (find_rational_satisfying_goldbach 3 4 1)[1]? := by
  decide

/-- C1 amended: each qualifying candidate is appended as its normalised
rational value; grid pairs denoting the same value are still checked and
appended independently, so the result list can contain the same value
twice (with the same canonical representation). -/
theorem driver_appends_value_per_pair :
    find_rational_satisfying_goldbach 3 4 1 =
      [1, mkRat 1 2, 1, mkRat 1 3, mkRat 2 3, 1,
        mkRat 1 4, mkRat 1 2, mkRat 3 4, 1] ∧
      (find_rational_satisfying_goldbach 3 4 1).count (mkRat 1 2) = 2 ∧
      mkRat 2 4 = mkRat 1 2 := by
  decide

end RationalGoldbach
